import Mathlib

/-!
Shallow embedding of the ETL pipeline in `src/main.py` (class `DataProcessor`),
together with proofs of the specified properties.

The pipeline reads message, client and user records, aggregates qualifying
message counts per (client_id, user_id, month), left-joins display names,
writes the summary to a warehouse table and one CSV file per client for the
previous calendar month.

Modelling conventions:
  - pandas DataFrames become lists of records (one structure per frame shape);
  - machine timestamps become a `Date` structure (year/month/day as `Nat`);
  - `pd.to_datetime`, which raises on an unparseable string, becomes an
    `Option`-returning parser, and the raising functions `transform_data` and
    `load_data` return `Except String _`;
  - external sink calls (`DataFrame.to_sql`) become a function parameter
    returning `Except String Unit`;
  - `groupby` enumerates group keys in first-occurrence-deduplicated order
    rather than the sorted order pandas uses; every property proved below is
    insensitive to the order in which groups are listed.
-/

namespace ETL

/-- Calendar date, as carried by a parsed `datetime` value.  Only the fields
used by the pipeline (year, month, day) are modelled; time-of-day is dropped
because nothing downstream of parsing reads it. -/
structure Date where
  year : Nat
  month : Nat
  day : Nat
deriving DecidableEq, Repr

/-- Month bucket, the value produced by `Series.dt.to_period("M")`: the
year and month of a timestamp with day and time truncated. -/
structure Month where
  year : Nat
  month : Nat
deriving DecidableEq, Repr

/-- Row of the `WAMessages` frame as read from the source: `client_id` and
`user_id` are nullable foreign keys, `created_at` is the raw timestamp text,
`status` the delivery status. -/
structure Message where
  client_id : Option Int
  user_id : Option Int
  created_at : String
  status : String
deriving DecidableEq, Repr

/-- Row of the `Client` reference frame (columns `id`, `name`). -/
structure Client where
  id : Int
  name : String
deriving DecidableEq, Repr

/-- Row of the `User` reference frame (columns `id`, `name`). -/
structure User where
  id : Int
  name : String
deriving DecidableEq, Repr

/-- Whether `y` is a leap year (Gregorian rule, as `datetime` uses). -/
def isLeap (y : Nat) : Bool :=
  (y % 4 == 0 && y % 100 != 0) || y % 400 == 0

/-- Number of days of month `m` in year `y`, as `datetime` arithmetic uses. -/
def daysInMonth (y m : Nat) : Nat :=
  if m == 2 then (if isLeap y then 29 else 28)
  else if m == 4 || m == 6 || m == 9 || m == 11 then 30
  else 31

/-- Value of a decimal digit character, `none` on a non-digit. -/
def digitVal (c : Char) : Option Nat :=
  if c.isDigit then some (c.toNat - 48) else none

/-- Parses the ten leading characters `YYYY-MM-DD` of a timestamp into a
`Date`, validating month and day ranges. -/
def parseDateChars : List Char → Option Date
  | [y1, y2, y3, y4, sep1, m1, m2, sep2, d1, d2] => do
    if sep1 = '-' ∧ sep2 = '-' then
      let a ← digitVal y1
      let b ← digitVal y2
      let c ← digitVal y3
      let d ← digitVal y4
      let me ← digitVal m1
      let mf ← digitVal m2
      let dg ← digitVal d1
      let dh ← digitVal d2
      let y := ((a * 10 + b) * 10 + c) * 10 + d
      let mo := me * 10 + mf
      let dy := dg * 10 + dh
      if 1 ≤ mo ∧ mo ≤ 12 ∧ 1 ≤ dy ∧ dy ≤ daysInMonth y mo then
        some ⟨y, mo, dy⟩
      else none
    else none
  | _ => none

/-- Models the library call `pd.to_datetime` on one cell, restricted to
ISO-like input `YYYY-MM-DD` optionally followed by a time part introduced by
a space or `T` (the time part itself is not inspected, since only the month
bucket of the result is ever read).  `pd.to_datetime` raises on input it
cannot parse; here that is the `none` result. -/
def parseTimestamp (s : String) : Option Date := do
  let cs := s.toList
  let d ← parseDateChars (cs.take 10)
  match cs.drop 10 with
  | [] => some d
  | ' ' :: _ => some d
  | 'T' :: _ => some d
  | _ => none

/-- Month bucket of a date: `Series.dt.to_period("M")`. -/
def toPeriodM (d : Date) : Month :=
  ⟨d.year, d.month⟩

/-- Message record after the `assign` step of `transform_data`: `created_at`
parsed and the derived `month` column attached.  Only the columns read
downstream (ids, month, status) are kept. -/
structure ParsedMessage where
  client_id : Option Int
  user_id : Option Int
  month : Month
  status : String
deriving DecidableEq, Repr

/-- The `assign` step of `transform_data` applied to the whole frame:
`created_at=pd.to_datetime(...)`, `month=....dt.to_period("M")`.  Fails with
the first unparseable timestamp, as `pd.to_datetime` raises. -/
def parseAll : List Message → Except String (List ParsedMessage)
  | [] => Except.ok []
  | m :: rest =>
    match parseTimestamp m.created_at with
    | none => Except.error ("unparseable timestamp: " ++ m.created_at)
    | some d =>
      (parseAll rest).map (fun tail => ⟨m.client_id, m.user_id, toPeriodM d, m.status⟩ :: tail)

/-- The status filter `df_messages["status"].isin(["delivered", "read"])`. -/
def isQualifying (s : String) : Bool :=
  s == "delivered" || s == "read"

/-- Messages surviving the status filter. -/
def qualifyingMessages (ms : List ParsedMessage) : List ParsedMessage :=
  ms.filter (fun m => isQualifying m.status)

/-- Grouping key of `groupby(["client_id", "user_id", "month"])`.  pandas
`groupby` keeps its default `dropna=True`, so a row whose `client_id` or
`user_id` is null belongs to no group: its key is `none`. -/
def keyOf (m : ParsedMessage) : Option (Int × Int × Month) :=
  match m.client_id, m.user_id with
  | some c, some u => some (c, u, m.month)
  | _, _ => none

/-- The non-null grouping keys of a message frame, one entry per grouped row. -/
def groupKeysList (ms : List ParsedMessage) : List (Int × Int × Month) :=
  ms.filterMap keyOf

/-- Row of the aggregated frame `df_messages_per_month`: the group key and the
group size renamed to `message_count`. -/
structure AggRow where
  client_id : Int
  user_id : Int
  month : Month
  message_count : Nat
deriving DecidableEq, Repr

/-- The aggregation `groupby(["client_id", "user_id", "month"],
as_index=False).size().rename(columns=...)`: one row per distinct non-null
key among the status-filtered messages, carrying the exact number of grouped
rows with that key. -/
def messagesPerMonth (ms : List ParsedMessage) : List AggRow :=
  (groupKeysList (qualifyingMessages ms)).dedup.map
    (fun k => ⟨k.1, k.2.1, k.2.2, (groupKeysList (qualifyingMessages ms)).count k⟩)

/-- Row of the frame after the first merge (left join against
`df_client[["id", "name"]]` on `client_id = id`): the right columns `id` and
`name` are null when no client matched. -/
structure ClientJoinRow where
  client_id : Int
  user_id : Int
  month : Month
  message_count : Nat
  id : Option Int
  name : Option String
deriving DecidableEq, Repr

/-- Row of `df_merged`, after the second merge (left join against
`df_user[["id", "name"]]` on `user_id = id`, `suffixes=("", "_user")`): the
colliding right columns are renamed `id_user` and `name_user`, the left
columns keep their names. -/
structure MergedRow where
  client_id : Int
  user_id : Int
  month : Month
  message_count : Nat
  id : Option Int
  name : Option String
  id_user : Option Int
  name_user : Option String
deriving DecidableEq, Repr

/-- First merge of `transform_data`: pandas left merge emits, for each left
row in order, one output row per matching right row, or a single
null-extended row when nothing matches. -/
def mergeClient (agg : List AggRow) (clients : List Client) : List ClientJoinRow :=
  agg.flatMap (fun a =>
    if (clients.filter (fun c => c.id == a.client_id)).isEmpty then
      [⟨a.client_id, a.user_id, a.month, a.message_count, none, none⟩]
    else
      (clients.filter (fun c => c.id == a.client_id)).map (fun c =>
        ⟨a.client_id, a.user_id, a.month, a.message_count, some c.id, some c.name⟩))

/-- Second merge of `transform_data`, with the same left-merge semantics and
the `("", "_user")` suffix handling of the colliding `id`/`name` columns. -/
def mergeUser (rows : List ClientJoinRow) (users : List User) : List MergedRow :=
  rows.flatMap (fun r =>
    if (users.filter (fun u => u.id == r.user_id)).isEmpty then
      [⟨r.client_id, r.user_id, r.month, r.message_count, r.id, r.name, none, none⟩]
    else
      (users.filter (fun u => u.id == r.user_id)).map (fun u =>
        ⟨r.client_id, r.user_id, r.month, r.message_count, r.id, r.name, some u.id, some u.name⟩))

/-- Row of the frame returned by `transform_data`, after the final column
selection `[["client_id", "name", "name_user", "month", "message_count"]]`. -/
structure SummaryRow where
  client_id : Int
  name : Option String
  name_user : Option String
  month : Month
  message_count : Nat
deriving DecidableEq, Repr

/-- The final column selection of `transform_data`. -/
def selectColumns (r : MergedRow) : SummaryRow :=
  ⟨r.client_id, r.name, r.name_user, r.month, r.message_count⟩

/-- `DataProcessor.transform_data`: parse timestamps and derive month buckets,
filter to qualifying statuses and aggregate counts per (client_id, user_id,
month), left-join client and user names, select the output columns.  Any
exception (here: an unparseable timestamp) is logged and re-raised, so the
whole call fails. -/
def transform_data (msgs : List Message) (clients : List Client) (users : List User) :
    Except String (List SummaryRow) :=
  (parseAll msgs).map (fun parsed =>
    (mergeUser (mergeClient (messagesPerMonth parsed) clients) users).map selectColumns)

/-- Left-pads the decimal representation of `n` with zeros to `w` digits,
as the `strftime` fields `%Y` (w = 4) and `%m` (w = 2) and the fixed-width
`str(Period)` rendering do. -/
def padNat (w n : Nat) : String :=
  let s := toString n
  String.mk (List.replicate (w - s.length) '0') ++ s

/-- Fixed-width `YYYY-MM` text of a month bucket: both `str()` applied to a
pandas `Period` of frequency `M` and `strftime("%Y-%m")` produce this. -/
def monthToStr (m : Month) : String :=
  padNat 4 m.year ++ "-" ++ padNat 2 m.month

/-- `datetime.replace(day=1)`. -/
def replaceDay1 (d : Date) : Date :=
  ⟨d.year, d.month, 1⟩

/-- Subtraction of `timedelta(days=1)` from a date, by calendar arithmetic:
stepping back over a month boundary lands on the last day of the previous
month, and over a year boundary on December 31. -/
def subOneDay (d : Date) : Date :=
  if d.day > 1 then ⟨d.year, d.month, d.day - 1⟩
  else if d.month = 1 then ⟨d.year - 1, 12, 31⟩
  else ⟨d.year, d.month - 1, daysInMonth d.year (d.month - 1)⟩

/-- The `previous_month` text computed in `load_data`:
`(datetime.now().replace(day=1) - timedelta(days=1)).strftime("%Y-%m")`,
with the current wall-clock date passed in explicitly. -/
def previousMonthStr (today : Date) : String :=
  monthToStr (toPeriodM (subOneDay (replaceDay1 today)))

/-- Row of the frame written to the warehouse, after the `assign` step of
`load_data` (`month` now text via `astype(str)`, `message_count` an integer
via `astype(int)`; counts are already non-negative integers, so the cast is
the identity on the value). -/
structure PersistRow where
  client_id : Int
  name : Option String
  name_user : Option String
  month : String
  message_count : Nat
deriving DecidableEq, Repr

/-- The `assign` step of `load_data` applied to one summary row. -/
def persistRow (r : SummaryRow) : PersistRow :=
  ⟨r.client_id, r.name, r.name_user, monthToStr r.month, r.message_count⟩

/-- Row of `final_result`: the previous-month rows with the four retained
columns renamed to the export labels `Nama Perusahaan`, `Nama Divisi`,
`Periode`, `Jumlah Pesan Terkirim` (field names romanized without spaces). -/
structure ExportRow where
  namaPerusahaan : Option String
  namaDivisi : Option String
  periode : String
  jumlahPesanTerkirim : Nat
deriving DecidableEq, Repr

/-- The rename and column selection producing one `final_result` row. -/
def exportRow (r : PersistRow) : ExportRow :=
  ⟨r.name, r.name_user, r.month, r.message_count⟩

/-- The CSV partitioning loop `for client_name, group in
final_result.groupby("Nama Perusahaan")`: one `(client_name, group)` pair per
distinct non-null client name, the group holding exactly the rows carrying
that name.  pandas `groupby` keeps its default `dropna=True`, so rows whose
client name is null belong to no group. -/
def groupByClientName (rows : List ExportRow) : List (String × List ExportRow) :=
  (rows.filterMap (fun r => r.namaPerusahaan)).dedup.map
    (fun n => (n, rows.filter (fun r => r.namaPerusahaan == some n)))

/-- The `if_exists` argument of the `to_sql` call in `load_data`: the literal
string `"replace"`, fixed in the source. -/
def ifExistsMode : String := "replace"

/-- Observable effects of one `load_data` run: the rows written to the
`WAMessagesSummary` warehouse table, the `if_exists` mode of that write, the
output directory, and the CSV files as `(client name, rows)` pairs — the file
path for a pair `(n, g)` is `outputDir ++ "/" ++ n ++ ".csv"`. -/
structure LoadResult where
  warehouse : List PersistRow
  mode : String
  outputDir : String
  files : List (String × List ExportRow)
deriving DecidableEq, Repr

/-- `DataProcessor.load_data`: format the summary rows, write them to the
warehouse via `to_sql` (modelled by the `toSql` parameter, since the database
is an external collaborator), then derive the previous month from the current
date, filter and rename to `final_result`, and write one CSV per client name
group.  Any exception is logged and re-raised, so a failing warehouse write
aborts the call before any file is produced. -/
def load_data (toSql : List PersistRow → Except String Unit) (today : Date)
    (df : List SummaryRow) : Except String LoadResult :=
  match toSql (df.map persistRow) with
  | Except.error e => Except.error e
  | Except.ok _ =>
    Except.ok
      ⟨df.map persistRow, ifExistsMode, "output/" ++ previousMonthStr today,
        groupByClientName
          (((df.map persistRow).filter
              (fun r => r.month == previousMonthStr today)).map exportRow)⟩

/-- Specification-side definition, for comparison with the code: the calendar
month immediately preceding a given month, with December of the previous year
preceding January. -/
def precedingMonth (m : Month) : Month :=
  if m.month = 1 then ⟨m.year - 1, 12⟩ else ⟨m.year, m.month - 1⟩

/-- Number of qualifying messages (status delivered or read) sharing the
group key `(c, u, mo)`: the exact cardinality the corresponding aggregate row
must carry according to the specification. -/
def qualCount (ms : List ParsedMessage) (c u : Int) (mo : Month) : Nat :=
  (ms.filter (fun m =>
    isQualifying m.status && m.client_id == some c
      && m.user_id == some u && m.month == mo)).length

/-- Helper: filtering a duplicate-free list for equality with `a` yields
`[a]` when `a` occurs in the list and `[]` otherwise. -/
theorem filter_beq_of_nodup {α : Type} [BEq α] [LawfulBEq α] [DecidableEq α] :
    ∀ (l : List α), l.Nodup → ∀ a : α,
      l.filter (fun x => x == a) = if a ∈ l then [a] else []
  | [], _, a => by simp
  | b :: t, h, a => by
    rcases List.nodup_cons.mp h with ⟨hb, ht⟩
    by_cases hba : b = a
    · subst hba
      have hnil : t.filter (fun x => x == b) = [] := by
        rw [List.filter_eq_nil_iff]
        intro x hx
        simp only [beq_iff_eq]
        intro hxa
        exact hb (hxa ▸ hx)
      simp [List.filter_cons, hnil]
    · have hne : (b == a) = false := by simp [hba]
      have hmem : (a ∈ t) ↔ (a ∈ b :: t) := by
        constructor
        · exact fun h1 => List.mem_cons.mpr (Or.inr h1)
        · intro h1
          rcases List.mem_cons.mp h1 with h2 | h2
          · exact absurd h2.symm hba
          · exact h2
      rw [List.filter_cons, hne]
      simp only [Bool.false_eq_true, if_false]
      rw [filter_beq_of_nodup t ht a]
      exact if_congr hmem rfl rfl

/-- Helper: the multiplicity of a key in the grouped-row key list equals the
qualifying-message count for that key. -/
theorem count_groupKeys (ms : List ParsedMessage) (c u : Int) (mo : Month) :
    (groupKeysList (qualifyingMessages ms)).count (c, u, mo) = qualCount ms c u mo := by
  unfold groupKeysList qualifyingMessages qualCount
  rw [List.count_filterMap, List.countP_filter, ← List.countP_eq_length_filter]
  apply List.countP_congr
  rintro ⟨cid, uid, mm, st⟩ _
  rcases cid with _ | c1 <;> rcases uid with _ | u1 <;>
    · rw [Bool.eq_iff_iff]
      simp [keyOf, Prod.ext_iff]
      try tauto

/-- Claim C1: for every parsed message frame inside `transform_data` and
every group key, the aggregation produces exactly one row for the key when at
least one qualifying message carries it, with `message_count` the exact
number of qualifying messages carrying it, and no row for the key otherwise;
non-qualifying statuses never contribute. -/
theorem C1_aggregate_exact_counts (ms : List ParsedMessage) (c u : Int) (mo : Month) :
    (messagesPerMonth ms).filter
        (fun r => r.client_id == c && r.user_id == u && r.month == mo)
      = (if qualCount ms c u mo = 0 then []
         else [⟨c, u, mo, qualCount ms c u mo⟩]) := by
  unfold messagesPerMonth
  rw [List.filter_map]
  have hpt : ∀ k ∈ (groupKeysList (qualifyingMessages ms)).dedup,
      ((fun r : AggRow => r.client_id == c && r.user_id == u && r.month == mo) ∘
        (fun k : Int × Int × Month =>
          (⟨k.1, k.2.1, k.2.2, (groupKeysList (qualifyingMessages ms)).count k⟩ : AggRow))) k
      = (k == (c, u, mo)) := by
    rintro ⟨k1, k2, k3⟩ _
    rw [Function.comp_apply, Bool.eq_iff_iff]
    simp [Prod.ext_iff, and_assoc]
  rw [List.filter_congr hpt,
    filter_beq_of_nodup _ (List.nodup_dedup _) (c, u, mo)]
  by_cases hm : (c, u, mo) ∈ groupKeysList (qualifyingMessages ms)
  · rw [if_pos (List.mem_dedup.mpr hm)]
    have hc := count_groupKeys ms c u mo
    have hne : qualCount ms c u mo ≠ 0 := by
      rw [← hc]
      exact Nat.pos_iff_ne_zero.mp (List.count_pos_iff.mpr hm)
    rw [if_neg hne]
    simp [hc]
  · rw [if_neg (fun hmem => hm (List.mem_dedup.mp hmem))]
    have hc := count_groupKeys ms c u mo
    have h0 : qualCount ms c u mo = 0 := by
      rw [← hc]
      exact List.count_eq_zero.mpr hm
    rw [if_pos h0]
    simp

/-- Claim C9: a message whose `client_id` or `user_id` is null contributes to
no aggregate row, even when its status qualifies: the `groupby` keeps its
default `dropna=True`, so removing such a message from the frame leaves the
aggregation result unchanged — the message is silently excluded from every
count, neither grouped under a null key nor rejected with an error. -/
theorem C9_null_ids_excluded (ms1 ms2 : List ParsedMessage) (m : ParsedMessage)
    (h : m.client_id = none ∨ m.user_id = none) :
    messagesPerMonth (ms1 ++ m :: ms2) = messagesPerMonth (ms1 ++ ms2) := by
  have hkey : keyOf m = none := by
    rcases h with h | h
    · rcases hu : m.user_id with _ | u <;> simp [keyOf, h, hu]
    · rcases hc : m.client_id with _ | c <;> simp [keyOf, h, hc]
  have key : groupKeysList (qualifyingMessages (ms1 ++ m :: ms2))
      = groupKeysList (qualifyingMessages (ms1 ++ ms2)) := by
    unfold groupKeysList qualifyingMessages
    rw [List.filter_append, List.filter_append, List.filterMap_append,
      List.filterMap_append]
    congr 1
    rw [List.filter_cons]
    by_cases hq : isQualifying m.status
    · rw [if_pos (by simp [hq]), List.filterMap_cons, hkey]
    · rw [if_neg (by simp [hq])]
  unfold messagesPerMonth
  rw [key]

/-- Helper: a flat map whose pieces all have length one preserves length. -/
theorem flatMap_length_one {α β : Type} (l : List α) (f : α → List β)
    (h : ∀ a ∈ l, (f a).length = 1) : (l.flatMap f).length = l.length := by
  induction l with
  | nil => rfl
  | cons a t ih =>
    rw [List.flatMap_cons, List.length_append, h a (List.mem_cons_self a t),
      ih (fun b hb => h b (List.mem_cons_of_mem a hb))]
    simp [Nat.add_comm]

/-- Helper: when the client ids are duplicate-free, at most one client
matches a given id. -/
theorem client_hits_le_one :
    ∀ (clients : List Client), (clients.map Client.id).Nodup → ∀ x : Int,
      (clients.filter (fun c => c.id == x)).length ≤ 1
  | [], _, x => by simp
  | c :: t, h, x => by
    rw [List.map_cons] at h
    rcases List.nodup_cons.mp h with ⟨hc, ht⟩
    rw [List.filter_cons]
    by_cases hcx : (c.id == x) = true
    · rw [if_pos hcx]
      have hnil : t.filter (fun d => d.id == x) = [] := by
        rw [List.filter_eq_nil_iff]
        intro d hd hdx
        apply hc
        have : d.id = x := by simpa using hdx
        have hcid : c.id = x := by simpa using hcx
        rw [hcid, ← this]
        exact List.mem_map_of_mem Client.id hd
      simp [hnil]
    · rw [if_neg hcx]
      exact client_hits_le_one t ht x

/-- Helper: when the user ids are duplicate-free, at most one user matches a
given id. -/
theorem user_hits_le_one :
    ∀ (users : List User), (users.map User.id).Nodup → ∀ x : Int,
      (users.filter (fun u => u.id == x)).length ≤ 1
  | [], _, x => by simp
  | u :: t, h, x => by
    rw [List.map_cons] at h
    rcases List.nodup_cons.mp h with ⟨hu, ht⟩
    rw [List.filter_cons]
    by_cases hux : (u.id == x) = true
    · rw [if_pos hux]
      have hnil : t.filter (fun d => d.id == x) = [] := by
        rw [List.filter_eq_nil_iff]
        intro d hd hdx
        apply hu
        have : d.id = x := by simpa using hdx
        have huid : u.id = x := by simpa using hux
        rw [huid, ← this]
        exact List.mem_map_of_mem User.id hd
      simp [hnil]
    · rw [if_neg hux]
      exact user_hits_le_one t ht x

/-- Helper: with duplicate-free client ids, the first left merge preserves
the row count. -/
theorem mergeClient_length (agg : List AggRow) (clients : List Client)
    (h : (clients.map Client.id).Nodup) :
    (mergeClient agg clients).length = agg.length := by
  unfold mergeClient
  apply flatMap_length_one
  intro a _
  by_cases he : (clients.filter (fun c => c.id == a.client_id)).isEmpty
  · simp [he]
  · rw [if_neg (by simp [he]), List.length_map]
    have hle := client_hits_le_one clients h a.client_id
    have hne : clients.filter (fun c => c.id == a.client_id) ≠ [] := by
      intro hnil
      exact he (by simp [hnil])
    have hpos := List.length_pos.mpr hne
    omega

/-- Helper: with duplicate-free user ids, the second left merge preserves the
row count. -/
theorem mergeUser_length (rows : List ClientJoinRow) (users : List User)
    (h : (users.map User.id).Nodup) :
    (mergeUser rows users).length = rows.length := by
  unfold mergeUser
  apply flatMap_length_one
  intro r _
  by_cases he : (users.filter (fun u => u.id == r.user_id)).isEmpty
  · simp [he]
  · rw [if_neg (by simp [he]), List.length_map]
    have hle := user_hits_le_one users h r.user_id
    have hne : users.filter (fun u => u.id == r.user_id) ≠ [] := by
      intro hnil
      exact he (by simp [hnil])
    have hpos := List.length_pos.mpr hne
    omega

/-- Claim C2 (amended): provided the client and the user reference sets carry
duplicate-free ids, the two left joins of `transform_data` preserve
cardinality — the summary row count equals the aggregate row count, no row
dropped and no row duplicated.  (Without the duplicate-free proviso the
pandas left merge fans out, see the counterexample.) -/
theorem C2_left_joins_preserve_cardinality (agg : List AggRow)
    (clients : List Client) (users : List User)
    (hc : (clients.map Client.id).Nodup) (hu : (users.map User.id).Nodup) :
    ((mergeUser (mergeClient agg clients) users).map selectColumns).length
      = agg.length := by
  rw [List.length_map, mergeUser_length _ _ hu, mergeClient_length _ _ hc]

/-- Claim C2, as frozen, is false: a client reference set with a duplicated
id makes the left merge emit two summary rows for one aggregate row. -/
theorem C2_counterexample :
    ((mergeUser (mergeClient [⟨1, 10, ⟨2024, 2⟩, 2⟩] [⟨1, "A"⟩, ⟨1, "B"⟩]) []).map
        selectColumns).length
      ≠ ([(⟨1, 10, ⟨2024, 2⟩, 2⟩ : AggRow)]).length := by
  decide

/-- Witness for C2: on the spec example (one aggregate row, one client, one
user, ids duplicate-free) the join output has exactly one row. -/
theorem C2_witness :
    ((mergeUser (mergeClient [⟨1, 10, ⟨2024, 2⟩, 2⟩] [⟨1, "Acme"⟩]) [⟨10, "Ops"⟩]).map
        selectColumns).length
      = ([(⟨1, 10, ⟨2024, 2⟩, 2⟩ : AggRow)]).length :=
  C2_left_joins_preserve_cardinality [⟨1, 10, ⟨2024, 2⟩, 2⟩] [⟨1, "Acme"⟩]
    [⟨10, "Ops"⟩] (by decide) (by decide)

/-- Witness for C9: prepending a qualifying message with a null `client_id`
to the spec example changes no aggregate row. -/
theorem C9_witness :
    messagesPerMonth ([] ++ ⟨none, some 10, ⟨2024, 2⟩, "read"⟩ ::
        [⟨some 1, some 10, ⟨2024, 2⟩, "read"⟩])
      = messagesPerMonth ([] ++ [⟨some 1, some 10, ⟨2024, 2⟩, "read"⟩]) :=
  C9_null_ids_excluded [] [⟨some 1, some 10, ⟨2024, 2⟩, "read"⟩]
    ⟨none, some 10, ⟨2024, 2⟩, "read"⟩ (Or.inl rfl)

/-- Claim C3: for every run date, the target month selected for file export
is the calendar month immediately preceding the current month of the run,
regardless of the day of month, including year rollover; in particular a run
on 2024-03-15 selects "2024-02" and a run on 2024-01-05 selects "2023-12". -/
theorem C3_target_month_is_preceding_month :
    (∀ d : Date, previousMonthStr d = monthToStr (precedingMonth ⟨d.year, d.month⟩))
    ∧ previousMonthStr ⟨2024, 3, 15⟩ = "2024-02"
    ∧ previousMonthStr ⟨2024, 1, 5⟩ = "2023-12" := by
  refine ⟨fun d => ?_, by decide, by decide⟩
  unfold previousMonthStr replaceDay1 subOneDay toPeriodM precedingMonth
  by_cases h : d.month = 1 <;> simp [h]

/-- Claim C5: the warehouse write comes first in `load_data` and is a hard
precondition for the export write — when `to_sql` raises, `load_data` fails
with that error and produces no export file. -/
theorem C5_warehouse_write_is_precondition
    (toSql : List PersistRow → Except String Unit) (today : Date)
    (df : List SummaryRow) (e : String)
    (h : toSql (df.map persistRow) = Except.error e) :
    load_data toSql today df = Except.error e := by
  unfold load_data
  rw [h]

/-- Witness for C5: a failing warehouse write aborts a concrete run with the
same error and no result. -/
theorem C5_witness :
    load_data (fun _ => Except.error "warehouse down") ⟨2024, 3, 15⟩
        [⟨1, some "Acme", some "Ops", ⟨2024, 2⟩, 2⟩]
      = Except.error "warehouse down" :=
  C5_warehouse_write_is_precondition _ _ _ _ rfl

/-- Helper: `parseAll` fails whenever some message carries an unparseable
timestamp. -/
theorem parseAll_error_of_bad :
    ∀ (msgs : List Message) (m : Message), m ∈ msgs →
      parseTimestamp m.created_at = none →
      ∃ e, parseAll msgs = Except.error e
  | [], m, hm, _ => absurd hm (by simp)
  | m0 :: t, m, hm, hp => by
    rcases List.mem_cons.mp hm with h0 | h0
    · subst h0
      refine ⟨"unparseable timestamp: " ++ m.created_at, ?_⟩
      unfold parseAll
      rw [hp]
    · rcases hq : parseTimestamp m0.created_at with _ | d
      · exact ⟨"unparseable timestamp: " ++ m0.created_at, by unfold parseAll; rw [hq]⟩
      · obtain ⟨e, he⟩ := parseAll_error_of_bad t m h0 hp
        refine ⟨e, ?_⟩
        unfold parseAll
        rw [hq, he]
        rfl

/-- Claim C6: when any message timestamp is unparseable, `transform_data`
raises and the run fails — the message is not silently skipped and no
aggregate output is produced. -/
theorem C6_malformed_timestamp_fails_run (msgs : List Message)
    (clients : List Client) (users : List User)
    (h : ∃ m ∈ msgs, parseTimestamp m.created_at = none) :
    ∃ e, transform_data msgs clients users = Except.error e := by
  obtain ⟨m, hm, hp⟩ := h
  obtain ⟨e, he⟩ := parseAll_error_of_bad msgs m hm hp
  refine ⟨e, ?_⟩
  unfold transform_data
  rw [he]
  rfl

/-- Witness for C6: a run over one message with garbage in `created_at`
fails. -/
theorem C6_witness :
    ∃ e, transform_data [⟨some 1, some 10, "not-a-date", "read"⟩] [] []
      = Except.error e :=
  C6_malformed_timestamp_fails_run _ _ _
    ⟨⟨some 1, some 10, "not-a-date", "read"⟩, by simp, rfl⟩

/-- Claim C7, as frozen, is false on the code: the warehouse write mode is
not a caller-supplied configuration choice — the `to_sql` call fixes
`if_exists="replace"` in the source, so a concrete run records mode
"replace", never "append". -/
theorem C7_counterexample :
    (load_data (fun _ => Except.ok ()) ⟨2024, 3, 15⟩ []).map LoadResult.mode
        = Except.ok "replace"
      ∧ ("replace" : String) ≠ "append" :=
  ⟨rfl, by decide⟩

/-- Claim C7 (amended): the warehouse write mode is hardcoded in `load_data`
to `if_exists="replace"`; every successful run fully replaces the table
contents and append mode is never used. -/
theorem C7_mode_hardcoded_replace
    (toSql : List PersistRow → Except String Unit) (today : Date)
    (df : List SummaryRow) (res : LoadResult)
    (h : load_data toSql today df = Except.ok res) :
    res.mode = ifExistsMode ∧ ifExistsMode = "replace" := by
  unfold load_data at h
  rcases htq : toSql (df.map persistRow) with e | u <;> rw [htq] at h
  · cases h
  · injection h with h2
    rw [← h2]
    exact ⟨rfl, rfl⟩

/-- Witness for C7: a concrete successful run records the hardcoded replace
mode. -/
theorem C7_witness :
    ∃ res, load_data (fun _ => Except.ok ()) ⟨2024, 3, 15⟩ [] = Except.ok res
      ∧ res.mode = ifExistsMode ∧ ifExistsMode = "replace" :=
  ⟨_, rfl, C7_mode_hardcoded_replace (fun _ => Except.ok ()) ⟨2024, 3, 15⟩ [] _ rfl⟩

/-- Claim C4: the partitioned file write is correct — the file keys are
pairwise distinct (no client appears in two files for the month), every file
holds exactly the export rows carrying its client name and exists only
because at least one row carries that name (a client with no qualifying rows
gets no file), and every row with a non-null client name lands in a file
keyed by that very name. -/
theorem C4_partition_correctness (rows : List ExportRow) :
    ((groupByClientName rows).map Prod.fst).Nodup
    ∧ (∀ p ∈ groupByClientName rows,
        p.2 = rows.filter (fun r => r.namaPerusahaan == some p.1)
        ∧ ∃ r ∈ rows, r.namaPerusahaan = some p.1)
    ∧ (∀ n : String, (∃ r ∈ rows, r.namaPerusahaan = some n) →
        ∃ g, (n, g) ∈ groupByClientName rows
          ∧ ∀ r ∈ rows, r.namaPerusahaan = some n → r ∈ g) := by
  refine ⟨?_, ?_, ?_⟩
  · unfold groupByClientName
    rw [List.map_map]
    have hcomp : (Prod.fst ∘ fun n : String =>
        (n, rows.filter (fun r => r.namaPerusahaan == some n))) = id := rfl
    rw [hcomp, List.map_id]
    exact List.nodup_dedup _
  · intro p hp
    unfold groupByClientName at hp
    obtain ⟨n, hn, hpe⟩ := List.mem_map.mp hp
    obtain ⟨r, hr, hrn⟩ := List.mem_filterMap.mp (List.mem_dedup.mp hn)
    exact ⟨by rw [← hpe], ⟨r, hr, by rw [hrn, ← hpe]⟩⟩
  · rintro n ⟨r, hr, hrn⟩
    have hd : n ∈ (rows.filterMap (fun r => r.namaPerusahaan)).dedup :=
      List.mem_dedup.mpr (List.mem_filterMap.mpr ⟨r, hr, hrn⟩)
    refine ⟨rows.filter (fun r => r.namaPerusahaan == some n),
      List.mem_map.mpr ⟨n, hd, rfl⟩, ?_⟩
    intro r2 hr2 hn2
    exact List.mem_filter.mpr ⟨hr2, by simp [hn2]⟩

/-- Helper: membership in the first merge — every output row copies its
aggregate key columns from the left row, and its `name` column is the name of
a matching client, or null exactly when no client matches. -/
theorem mergeClient_mem (agg : List AggRow) (clients : List Client)
    (r : ClientJoinRow) (hr : r ∈ mergeClient agg clients) :
    (∃ c ∈ clients, c.id = r.client_id ∧ r.name = some c.name)
    ∨ (r.name = none ∧ ∀ c ∈ clients, c.id ≠ r.client_id) := by
  unfold mergeClient at hr
  obtain ⟨a, ha, hrf⟩ := List.mem_flatMap.mp hr
  by_cases he : (clients.filter (fun c => c.id == a.client_id)).isEmpty
  · rw [if_pos he] at hrf
    have hr2 : r = ⟨a.client_id, a.user_id, a.month, a.message_count, none, none⟩ := by
      simpa using hrf
    subst hr2
    refine Or.inr ⟨rfl, ?_⟩
    intro c hc hid
    have hfe : clients.filter (fun c => c.id == a.client_id) = [] := by
      simpa using he
    have : c ∈ clients.filter (fun c => c.id == a.client_id) :=
      List.mem_filter.mpr ⟨hc, by simp [hid]⟩
    rw [hfe] at this
    cases this
  · rw [if_neg he] at hrf
    obtain ⟨c, hcf, hre⟩ := List.mem_map.mp hrf
    obtain ⟨hcmem, hcid⟩ := List.mem_filter.mp hcf
    subst hre
    exact Or.inl ⟨c, hcmem, by simpa using hcid, rfl⟩

/-- Helper: membership in the second merge — every output row copies its
columns from a left row, and its `name_user` column is the name of a matching
user, or null exactly when no user matches. -/
theorem mergeUser_mem (rows : List ClientJoinRow) (users : List User)
    (j : MergedRow) (hj : j ∈ mergeUser rows users) :
    ∃ r ∈ rows, j.client_id = r.client_id ∧ j.name = r.name
      ∧ j.user_id = r.user_id
      ∧ ((∃ u ∈ users, u.id = j.user_id ∧ j.name_user = some u.name)
        ∨ (j.name_user = none ∧ ∀ u ∈ users, u.id ≠ j.user_id)) := by
  unfold mergeUser at hj
  obtain ⟨r, hr, hjf⟩ := List.mem_flatMap.mp hj
  by_cases he : (users.filter (fun u => u.id == r.user_id)).isEmpty
  · rw [if_pos he] at hjf
    have hj2 : j = ⟨r.client_id, r.user_id, r.month, r.message_count,
        r.id, r.name, none, none⟩ := by
      simpa using hjf
    subst hj2
    refine ⟨r, hr, rfl, rfl, rfl, Or.inr ⟨rfl, ?_⟩⟩
    intro u hu hid
    have hfe : users.filter (fun u => u.id == r.user_id) = [] := by
      simpa using he
    have : u ∈ users.filter (fun u => u.id == r.user_id) :=
      List.mem_filter.mpr ⟨hu, by simp [hid]⟩
    rw [hfe] at this
    cases this
  · rw [if_neg he] at hjf
    obtain ⟨u, huf, hje⟩ := List.mem_map.mp hjf
    obtain ⟨humem, huid⟩ := List.mem_filter.mp huf
    subst hje
    exact ⟨r, hr, rfl, rfl, rfl, Or.inl ⟨u, humem, by simpa using huid, rfl⟩⟩

/-- Claim C8: every merged row carries the client display name and the user
display name as two distinct, distinctly labelled attributes (`name` and
`name_user`), each taken from its own reference set — null exactly when its
own id has no match — and the final column selection preserves both without
one overwriting the other. -/
theorem C8_two_distinct_name_attributes (agg : List AggRow)
    (clients : List Client) (users : List User) :
    ∀ j ∈ mergeUser (mergeClient agg clients) users,
      ((∃ c ∈ clients, c.id = j.client_id ∧ j.name = some c.name)
        ∨ (j.name = none ∧ ∀ c ∈ clients, c.id ≠ j.client_id))
      ∧ ((∃ u ∈ users, u.id = j.user_id ∧ j.name_user = some u.name)
        ∨ (j.name_user = none ∧ ∀ u ∈ users, u.id ≠ j.user_id))
      ∧ (selectColumns j).name = j.name
      ∧ (selectColumns j).name_user = j.name_user := by
  intro j hj
  obtain ⟨r, hr, hcid, hname, huid, huser⟩ := mergeUser_mem _ _ _ hj
  have hclient := mergeClient_mem _ _ _ hr
  refine ⟨?_, huser, rfl, rfl⟩
  rw [hcid, hname]
  exact hclient

/-- Witness for C8: on the spec example the single merged row carries
`name = "Acme"` from the client set and `name_user = "Ops"` from the user
set, both preserved by the column selection. -/
theorem C8_witness :
    ((∃ c ∈ [(⟨1, "Acme"⟩ : Client)], c.id = (1 : Int)
        ∧ (some "Acme" : Option String) = some c.name)
      ∨ ((some "Acme" : Option String) = none
        ∧ ∀ c ∈ [(⟨1, "Acme"⟩ : Client)], c.id ≠ (1 : Int)))
    ∧ ((∃ u ∈ [(⟨10, "Ops"⟩ : User)], u.id = (10 : Int)
        ∧ (some "Ops" : Option String) = some u.name)
      ∨ ((some "Ops" : Option String) = none
        ∧ ∀ u ∈ [(⟨10, "Ops"⟩ : User)], u.id ≠ (10 : Int)))
    ∧ (selectColumns ⟨1, 10, ⟨2024, 2⟩, 2, some 1, some "Acme",
        some 10, some "Ops"⟩).name = some "Acme"
    ∧ (selectColumns ⟨1, 10, ⟨2024, 2⟩, 2, some 1, some "Acme",
        some 10, some "Ops"⟩).name_user = some "Ops" :=
  C8_two_distinct_name_attributes [⟨1, 10, ⟨2024, 2⟩, 2⟩] [⟨1, "Acme"⟩]
    [⟨10, "Ops"⟩]
    ⟨1, 10, ⟨2024, 2⟩, 2, some 1, some "Acme", some 10, some "Ops"⟩ (by decide)

/-- Claim C10: on a successful run every summary row reaches the warehouse
write, but a row whose client display name is null is written into no export
file — the `groupby` on the name column drops null keys. -/
theorem C10_null_name_row_in_no_file
    (toSql : List PersistRow → Except String Unit) (today : Date)
    (df : List SummaryRow) (res : LoadResult)
    (h : load_data toSql today df = Except.ok res) :
    (∀ r ∈ df, persistRow r ∈ res.warehouse)
    ∧ (∀ r ∈ df, r.name = none →
        ∀ p ∈ res.files, exportRow (persistRow r) ∉ p.2) := by
  unfold load_data at h
  rcases htq : toSql (df.map persistRow) with e | u <;> rw [htq] at h
  · cases h
  · injection h with h2
    constructor
    · intro r hr
      rw [← h2]
      exact List.mem_map_of_mem persistRow hr
    · intro r hr hname p hp hmem
      rw [← h2] at hp
      unfold groupByClientName at hp
      obtain ⟨n, hn, hpe⟩ := List.mem_map.mp hp
      rw [← hpe] at hmem
      have hbeq := (List.mem_filter.mp hmem).2
      simp [exportRow, persistRow, hname] at hbeq

/-- Witness for C10: a concrete run with one null-named summary row puts the
row in the warehouse output and in no file. -/
theorem C10_witness :
    ∃ res, load_data (fun _ => Except.ok ()) ⟨2024, 3, 15⟩
        [⟨7, none, some "Ops", ⟨2024, 2⟩, 3⟩] = Except.ok res
      ∧ ((∀ r ∈ [(⟨7, none, some "Ops", ⟨2024, 2⟩, 3⟩ : SummaryRow)],
            persistRow r ∈ res.warehouse)
        ∧ (∀ r ∈ [(⟨7, none, some "Ops", ⟨2024, 2⟩, 3⟩ : SummaryRow)],
            r.name = none → ∀ p ∈ res.files, exportRow (persistRow r) ∉ p.2)) :=
  ⟨_, rfl, C10_null_name_row_in_no_file (fun _ => Except.ok ()) ⟨2024, 3, 15⟩
    [⟨7, none, some "Ops", ⟨2024, 2⟩, 3⟩] _ rfl⟩

end ETL
